import Mathlib

/-!
Verification development for the three data-reader scripts distributed with the
Applied Statistics 2023-24 exam (directory `DataAndCodeForExam`):

* `DataReader_Problem4.1_LargestPopulation.py`
* `DataReader_Problem5.1_SignalDetection.py`
* `DataReader_Problem5.2_DecayTimes.py`

Each script is a straight-line sequence: `np.genfromtxt` on a fixed file name,
a print of the array shape, basic column slices, and prints of samples.

The embedding models:
* the text-to-table conversion performed by `np.genfromtxt` with the scripts'
  arguments (`delimiter=','`, `skip_header=1` for 4.1/5.1; default whitespace
  delimiter and no header skipping for 5.2): line splitting, comment
  stripping, field splitting, and Python `float()` conversion of each field,
  with unconvertible fields becoming NaN and ragged rows raising an error;
  numeric values are carried exactly (as rationals, plus NaN and infinities),
  abstracting binary floating-point rounding, which none of the checked
  properties depend on;
* ndarrays as views (buffer id, offset, shape, strides) into a store of
  allocated buffers, so that numpy's distinction between basic slices
  (views sharing the buffer) and `astype` (a fresh copy) is explicit;
* each script as a function from the (possibly missing) input file's contents
  to a `RunResult`: the ordered trace of its observable events (file open,
  load, named slices, prints), the final store, and the error, if any, that
  terminated it.
-/

namespace AppStat

/-- A numeric value held in a float64 ndarray cell: a finite value (carried
exactly), IEEE NaN (genfromtxt's result for unconvertible or missing fields),
or a signed infinity. -/
inductive Val where
  | num (q : ℚ)
  | nan
  | inf (neg : Bool)
deriving DecidableEq

/-- ASCII decimal digit test, as used by Python's float literal grammar. -/
def isDigitChar (c : Char) : Bool := 48 ≤ c.toNat && c.toNat ≤ 57

/-- Longest digit run at the head of the character list, and the remainder. -/
def spanDigits : List Char → List Char × List Char
  | [] => ([], [])
  | c :: cs =>
    if isDigitChar c then
      let p := spanDigits cs
      (c :: p.1, p.2)
    else ([], c :: cs)

/-- Numeric value of a digit run (most significant digit first). -/
def digitsVal (cs : List Char) : Nat :=
  cs.foldl (fun a c => a * 10 + (c.toNat - 48)) 0

/-- Mantissa of a float literal: `digits [. digits]` with at least one digit.
Returns the mantissa digits' value, the number of fractional digits, and the
unconsumed remainder. -/
def parseMantissa (cs : List Char) : Option (Nat × Nat × List Char) :=
  let p1 := spanDigits cs
  match p1.2 with
  | '.' :: r2 =>
    let p2 := spanDigits r2
    if p1.1.isEmpty && p2.1.isEmpty then none
    else some (digitsVal (p1.1 ++ p2.1), p2.1.length, p2.2)
  | _ => if p1.1.isEmpty then none else some (digitsVal p1.1, 0, p1.2)

/-- Exponent part of a float literal: either nothing, or `e [sign] digits`
consuming the whole remainder. Returns the exponent's sign and magnitude. -/
def parseExpPart : List Char → Option (Bool × Nat)
  | [] => some (false, 0)
  | 'e' :: rest =>
    let p : Bool × List Char :=
      match rest with
      | '+' :: r => (false, r)
      | '-' :: r => (true, r)
      | r => (false, r)
    let d := spanDigits p.2
    if d.1.isEmpty || !d.2.isEmpty then none else some (p.1, digitsVal d.1)
  | _ => none

/-- Assemble the exact value of a parsed decimal literal:
`m / 10^k` scaled by `10^e` in the direction given by `eneg`. -/
def decimalVal (m k : Nat) (eneg : Bool) (e : Nat) : ℚ :=
  if eneg then mkRat (Int.ofNat m) (10 ^ (k + e))
  else mkRat (Int.ofNat (m * 10 ^ e)) (10 ^ k)

/-- Python `float()` on a lower-cased, stripped character list: optional sign,
then `inf`/`infinity`/`nan` or a decimal literal with optional exponent. -/
def parseSigned (cs : List Char) : Option Val :=
  let sp : Bool × List Char :=
    match cs with
    | '+' :: r => (false, r)
    | '-' :: r => (true, r)
    | r => (false, r)
  match sp.2 with
  | ['i', 'n', 'f'] => some (.inf sp.1)
  | ['i', 'n', 'f', 'i', 'n', 'i', 't', 'y'] => some (.inf sp.1)
  | ['n', 'a', 'n'] => some .nan
  | rest =>
    match parseMantissa rest with
    | none => none
    | some mk =>
      match parseExpPart mk.2.2 with
      | none => none
      | some be =>
        let v := decimalVal mk.1 mk.2.1 be.1 be.2
        some (.num (if sp.1 then -v else v))

/-- Strip leading and trailing whitespace, mirroring Python's `str.strip()`. -/
def trimChars (cs : List Char) : List Char :=
  ((cs.dropWhile Char.isWhitespace).reverse.dropWhile Char.isWhitespace).reverse

/-- genfromtxt's default float converter applied to one field: Python
`float()` on the stripped text; fields it cannot convert (including empty,
i.e. missing, fields) become NaN rather than raising. -/
def parseField (cs : List Char) : Val :=
  match parseSigned ((trimChars cs).map Char.toLower) with
  | some v => v
  | none => Val.nan

/-- Split a character list at every character satisfying `p`, keeping empty
chunks (so a trailing separator yields a trailing empty chunk). -/
def splitChar (p : Char → Bool) : List Char → List (List Char)
  | [] => [[]]
  | c :: cs =>
    let r := splitChar p cs
    if p c then [] :: r
    else
      match r with
      | [] => [[c]]
      | f :: rest => (c :: f) :: rest

/-- Drop a `#` comment: keep the characters before the first `#`
(genfromtxt's default `comments='#'`). -/
def stripComment (cs : List Char) : List Char := cs.takeWhile (fun c => !(c == '#'))

/-- genfromtxt's splitting of one raw line into fields.
With an explicit delimiter the line is split at every delimiter occurrence and
each field is stripped; a line that is blank after comment removal yields no
fields. With the default delimiter (`none`) the line is split at whitespace
runs, so blank lines naturally yield no fields. -/
def splitFields (delim : Option Char) (line : List Char) : List (List Char) :=
  let body := stripComment line
  match delim with
  | some d =>
    if (trimChars body).isEmpty then []
    else (splitChar (fun c => c == d) body).map trimChars
  | none => (splitChar Char.isWhitespace body).filter (fun f => !f.isEmpty)

/-- The field rows genfromtxt extracts from the file's contents: the first
`skipHeader` raw lines are dropped, every remaining line is split into fields,
and lines with no fields (blank or comment-only lines) are skipped. -/
def fieldRows (delim : Option Char) (skipHeader : Nat) (contents : String) :
    List (List (List Char)) :=
  ((splitChar (fun c => c == '\n') contents.data).drop skipHeader).filterMap
    (fun ln =>
      let fs := splitFields delim ln
      if fs.isEmpty then none else some fs)

/-- The numeric rows: every field of every field row converted to a value. -/
def valRows (delim : Option Char) (skipHeader : Nat) (contents : String) :
    List (List Val) :=
  (fieldRows delim skipHeader contents).map (fun r => r.map parseField)

/-- The errors that can terminate a script run. -/
inductive LoadErr where
  | fileMissing
  | emptyData
  | raggedRows
  | indexError
deriving DecidableEq

/-- Every row has the same number of fields as the first row
(genfromtxt raises for the lines that do not). -/
def rectangular (rows : List (List (List Char))) : Bool :=
  match rows with
  | [] => false
  | r0 :: rest => rest.all (fun r => r.length = r0.length)

/-- `np.genfromtxt` on the file's contents, as called by the scripts: the
numeric rows if there is at least one data row and the rows are rectangular,
an error otherwise. -/
def genfromtxt (delim : Option Char) (skipHeader : Nat) (contents : String) :
    Except LoadErr (List (List Val)) :=
  if (fieldRows delim skipHeader contents).isEmpty then .error .emptyData
  else if rectangular (fieldRows delim skipHeader contents) then
    .ok (valRows delim skipHeader contents)
  else .error .raggedRows

/-- The shape of the returned ndarray: `(rows, cols)` with axes of extent 1
squeezed away, as genfromtxt does (a single-column file loads as a
one-dimensional array). -/
def npShape (rows : List (List Val)) : List Nat :=
  [rows.length, (rows.headD []).length].filter (fun d => !(d == 1))

/-- One ndarray cell: float data or (after `astype(int)`) integer data. -/
inductive Cell where
  | f (v : Val)
  | i (n : Int)
deriving DecidableEq

/-- An allocated buffer: the flat row-major cell data owned by one ndarray. -/
abbrev Buf := List Cell

/-- The store of allocated buffers, indexed by allocation order. -/
abbrev Store := List Buf

/-- The flat row-major buffer holding the loaded table. -/
def rowsToBuf (rows : List (List Val)) : Buf :=
  (rows.map (fun r => r.map Cell.f)).flatten

/-- An ndarray: a view into a buffer of the store, described by the buffer id,
the start offset, and the shape and strides (in elements) per axis. -/
structure Arr where
  buf : Nat
  offset : Nat
  shape : List Nat
  strides : List Nat
deriving DecidableEq

/-- Row-major strides for a freshly allocated array of the given shape. -/
def rowMajor : List Nat → List Nat
  | [] => []
  | [_] => [1]
  | [_, c] => [c, 1]
  | _ => []

/-- The array returned by genfromtxt: buffer 0 (the first allocation),
contiguous row-major data of the squeezed shape. -/
def baseArr (rows : List (List Val)) : Arr :=
  ⟨0, 0, npShape rows, rowMajor (npShape rows)⟩

/-- The cell at a flat position of a buffer of the store. -/
def cellAt (st : Store) (b : Nat) (idx : Nat) : Cell :=
  (st.getD b []).getD idx (.f .nan)

/-- The element sequence of a one-dimensional array. -/
def readElems (st : Store) (a : Arr) : List Cell :=
  match a.shape, a.strides with
  | [n], [s] => (List.range n).map (fun i => cellAt st a.buf (a.offset + i * s))
  | _, _ => []

/-- The element rows of a two-dimensional array. -/
def readRows (st : Store) (a : Arr) : List (List Cell) :=
  match a.shape, a.strides with
  | [r, c], [sr, sc] =>
    (List.range r).map (fun i =>
      (List.range c).map (fun j => cellAt st a.buf (a.offset + i * sr + j * sc)))
  | _, _ => []

/-- Basic slice `a[:, j]`: a view on the same buffer selecting column `j` of a
two-dimensional array; `none` models the IndexError numpy raises when the
array is not two-dimensional or the column does not exist. -/
def colSlice (a : Arr) (j : Nat) : Option Arr :=
  match a.shape, a.strides with
  | [r, c], [sr, sc] =>
    if j < c then some ⟨a.buf, a.offset + j * sc, [r], [sr]⟩ else none
  | _, _ => none

/-- Basic slice `a[0:k]`: a view on the same buffer restricting the first axis
to its first `min k n` positions; `none` models the IndexError numpy raises
when a zero-dimensional array is sliced. -/
def headSlice (a : Arr) (k : Nat) : Option Arr :=
  match a.shape, a.strides with
  | n :: ns, s :: ss => some ⟨a.buf, a.offset, min k n :: ns, s :: ss⟩
  | _, _ => none

/-- The int64 value produced on the reference platform when a non-finite
float is cast to an integer (numpy performs the C cast without raising). -/
def nonFiniteInt : Int := -9223372036854775808

/-- Truncation toward zero of an exact value, as the float-to-int C cast
performs on finite values. -/
def ratTrunc (q : ℚ) : Int := q.num.tdiv (q.den : Int)

/-- Conversion of one cell by `astype(int)`: finite floats truncate toward
zero, non-finite floats silently become `nonFiniteInt`. -/
def cellToInt : Cell → Cell
  | .f (.num q) => .i (ratTrunc q)
  | .f _ => .i nonFiniteInt
  | .i n => .i n

/-- `ndarray.astype(int)` on a one-dimensional array: reads the elements,
converts them, and allocates a NEW buffer for the result (astype copies;
the result does not share the source's storage). -/
def astypeInt (st : Store) (a : Arr) : Store × Arr :=
  let cells := (readElems st a).map cellToInt
  (st ++ [cells], ⟨st.length, 0, [cells.length], [1]⟩)

/-- One printed console item, abstracting numeric formatting: a shape tuple
(with the optional leading label string of the print call), the elements of a
one-dimensional array, the rows of a two-dimensional array, or a scalar. -/
inductive OutItem where
  | shapeOut (label : Option String) (dims : List Nat)
  | arrOut (cells : List Cell)
  | matOut (rows : List (List Cell))
  | scalarOut (c : Cell)
deriving DecidableEq

/-- `print` applied to an ndarray: emits its contents by dimensionality. -/
def printArr (st : Store) (a : Arr) : OutItem :=
  match a.shape with
  | [] => .scalarOut (cellAt st a.buf a.offset)
  | [_] => .arrOut (readElems st a)
  | _ => .matOut (readRows st a)

/-- One observable step of a script run. -/
inductive Event where
  | openFile (name : String)
  | loaded (a : Arr)
  | sliced (name : String) (a : Arr)
  | printed (item : OutItem)
deriving DecidableEq

/-- The complete observable behaviour of one script execution: the ordered
event trace, the unrecovered error that terminated it (`none` when the script
ran to completion), and the final buffer store. -/
structure RunResult where
  trace : List Event
  err : Option LoadErr
  store : Store
deriving DecidableEq

def name41 : String := "data_LargestPopulation.csv"
def name51 : String := "data_SignalDetection.csv"
def name52 : String := "data_DecayTimes.csv"
def label51 : String := "  Shape of data: "

/-- `DataReader_Problem4.1_LargestPopulation.py`, lines 19-28:
load with `delimiter=','`, `skip_header=1`; print `data.shape`;
slice `year`, `PopIndia`, `PopChina` as columns 0, 1, 2; print each column.
The argument is the contents of `data_LargestPopulation.csv`, or `none` when
the file is missing. -/
def run41 (file : Option String) : RunResult :=
  match file with
  | none => ⟨[], some .fileMissing, []⟩
  | some contents =>
    match genfromtxt (some ',') 1 contents with
    | .error e => ⟨[.openFile name41], some e, []⟩
    | .ok rows =>
      let st : Store := [rowsToBuf rows]
      let data : Arr := baseArr rows
      let t0 : List Event :=
        [.openFile name41, .loaded data, .printed (.shapeOut none data.shape)]
      match colSlice data 0 with
      | none => ⟨t0, some .indexError, st⟩
      | some year =>
        let t1 := t0 ++ [.sliced "year" year]
        match colSlice data 1 with
        | none => ⟨t1, some .indexError, st⟩
        | some PopIndia =>
          let t2 := t1 ++ [.sliced "PopIndia" PopIndia]
          match colSlice data 2 with
          | none => ⟨t2, some .indexError, st⟩
          | some PopChina =>
            ⟨t2 ++ [.sliced "PopChina" PopChina, .printed (printArr st year),
              .printed (printArr st PopIndia), .printed (printArr st PopChina)],
              none, st⟩

/-- `DataReader_Problem5.1_SignalDetection.py`, lines 21-34:
load with `delimiter=','`, `skip_header=1`; print the labelled `data.shape`;
bind `index = data[:,0].astype(int)`, `P = data[:,1]`, `R = data[:,2]`,
`freq = data[:,3]`, `type = data[:,4].astype(int)`; print the first three
entries of each. -/
def run51 (file : Option String) : RunResult :=
  match file with
  | none => ⟨[], some .fileMissing, []⟩
  | some contents =>
    match genfromtxt (some ',') 1 contents with
    | .error e => ⟨[.openFile name51], some e, []⟩
    | .ok rows =>
      let st0 : Store := [rowsToBuf rows]
      let data : Arr := baseArr rows
      let t0 : List Event :=
        [.openFile name51, .loaded data, .printed (.shapeOut (some label51) data.shape)]
      match colSlice data 0 with
      | none => ⟨t0, some .indexError, st0⟩
      | some col0 =>
        let a1 := astypeInt st0 col0
        let st1 := a1.1
        let index := a1.2
        let t1 := t0 ++ [.sliced "index" index]
        match colSlice data 1 with
        | none => ⟨t1, some .indexError, st1⟩
        | some P =>
          let t2 := t1 ++ [.sliced "P" P]
          match colSlice data 2 with
          | none => ⟨t2, some .indexError, st1⟩
          | some R =>
            let t3 := t2 ++ [.sliced "R" R]
            match colSlice data 3 with
            | none => ⟨t3, some .indexError, st1⟩
            | some freq =>
              let t4 := t3 ++ [.sliced "freq" freq]
              match colSlice data 4 with
              | none => ⟨t4, some .indexError, st1⟩
              | some col4 =>
                let a2 := astypeInt st1 col4
                let st2 := a2.1
                let ty := a2.2
                let t5 := t4 ++ [.sliced "type" ty]
                match headSlice index 3, headSlice P 3, headSlice R 3,
                    headSlice freq 3, headSlice ty 3 with
                | some i3, some p3, some r3, some f3, some y3 =>
                  ⟨t5 ++ [.printed (printArr st2 i3), .printed (printArr st2 p3),
                    .printed (printArr st2 r3), .printed (printArr st2 f3),
                    .printed (printArr st2 y3)], none, st2⟩
                | _, _, _, _, _ => ⟨t5, some .indexError, st2⟩

/-- `DataReader_Problem5.2_DecayTimes.py`, lines 16-20:
load with the default whitespace delimiter and no header skipping; print
`data.shape`; print `data[0:10]`. -/
def run52 (file : Option String) : RunResult :=
  match file with
  | none => ⟨[], some .fileMissing, []⟩
  | some contents =>
    match genfromtxt none 0 contents with
    | .error e => ⟨[.openFile name52], some e, []⟩
    | .ok rows =>
      let st : Store := [rowsToBuf rows]
      let data : Arr := baseArr rows
      let t0 : List Event :=
        [.openFile name52, .loaded data, .printed (.shapeOut none data.shape)]
      match headSlice data 10 with
      | none => ⟨t0, some .indexError, st⟩
      | some d10 => ⟨t0 ++ [.printed (printArr st d10)], none, st⟩

/-- The model of a process environment a script could in principle consult:
command-line arguments, environment variables, a clock reading, and a seed for
any random source. None of the three scripts reads any of these (they import
only numpy and never touch `sys`, `os`, `random` or `time`), so the embedded
runs take the environment as an argument and ignore it. -/
structure Env where
  argv : List String
  environ : List (String × String)
  clock : Nat
  randomSeed : Nat
deriving DecidableEq

/-- `DataReader_Problem4.1_LargestPopulation.py` as run in an environment. -/
def run41Env (_env : Env) (file : Option String) : RunResult := run41 file

/-- `DataReader_Problem5.1_SignalDetection.py` as run in an environment. -/
def run51Env (_env : Env) (file : Option String) : RunResult := run51 file

/-- `DataReader_Problem5.2_DecayTimes.py` as run in an environment. -/
def run52Env (_env : Env) (file : Option String) : RunResult := run52 file

instance {ε α : Type u} [DecidableEq ε] [DecidableEq α] : DecidableEq (Except ε α) :=
  fun a b =>
    match a, b with
    | .ok x, .ok y =>
      if h : x = y then .isTrue (by rw [h]) else .isFalse (by intro hc; cases hc; exact h rfl)
    | .error x, .error y =>
      if h : x = y then .isTrue (by rw [h]) else .isFalse (by intro hc; cases hc; exact h rfl)
    | .ok _, .error _ => .isFalse (by intro hc; cases hc)
    | .error _, .ok _ => .isFalse (by intro hc; cases hc)

/-- A file's contents are well formed for a reader expecting `m` columns:
after header skipping and blank-line removal there are at least two data rows
(the documented row counts are 63, 120000 and 1000) and every data row has
exactly `m` fields. -/
def wfCols (delim : Option Char) (skipHeader m : Nat) (c : String) : Prop :=
  2 ≤ (fieldRows delim skipHeader c).length ∧
    ∀ r ∈ fieldRows delim skipHeader c, r.length = m

instance (delim : Option Char) (skipHeader m : Nat) (c : String) :
    Decidable (wfCols delim skipHeader m c) := by
  unfold wfCols; exact inferInstance

/-- Well-formed input for `DataReader_Problem4.1`: 3 columns, one header line. -/
def wf41 (c : String) : Prop := wfCols (some ',') 1 3 c

/-- Well-formed input for `DataReader_Problem5.1`: 5 columns, one header line. -/
def wf51 (c : String) : Prop := wfCols (some ',') 1 5 c

/-- Well-formed input for `DataReader_Problem5.2`: one whitespace-delimited
value per record, no header. -/
def wf52 (c : String) : Prop := wfCols none 0 1 c

instance (c : String) : Decidable (wf41 c) := by unfold wf41; exact inferInstance

instance (c : String) : Decidable (wf51 c) := by unfold wf51; exact inferInstance

instance (c : String) : Decidable (wf52 c) := by unfold wf52; exact inferInstance

/-- Column `j` of the loaded table, as float cells. -/
def colCells (rows : List (List Val)) (j : Nat) : List Cell :=
  rows.map (fun r => Cell.f (r.getD j .nan))

/-- The items printed during a run, in order. -/
def printedItems (t : List Event) : List OutItem :=
  t.filterMap (fun e => match e with | .printed i => some i | _ => none)

/-- The printed one-dimensional array samples of a run, in order. -/
def printedCellLists (t : List Event) : List (List Cell) :=
  t.filterMap (fun e => match e with | .printed (.arrOut l) => some l | _ => none)

/-- The arrays returned by the load, in order. -/
def loadedArrs (t : List Event) : List Arr :=
  t.filterMap (fun e => match e with | .loaded a => some a | _ => none)

/-- The named bindings taken from the loaded table, in order. -/
def slicedArrs (t : List Event) : List (String × Arr) :=
  t.filterMap (fun e => match e with | .sliced n a => some (n, a) | _ => none)

/-- Whether an event is the taking of a named slice. -/
def isSlicedEv : Event → Bool
  | .sliced _ _ => true
  | _ => false

/-- Whether some print event occurs strictly before some slice event. -/
def printBeforeSlice : List Event → Bool
  | [] => false
  | .printed _ :: rest => rest.any isSlicedEv || printBeforeSlice rest
  | _ :: rest => printBeforeSlice rest

/-- The kind of an event, for stating the order of a run's phases. -/
inductive EvKind where
  | openK
  | loadK
  | sliceK
  | printK
deriving DecidableEq

/-- The kind of each event. -/
def kindOf : Event → EvKind
  | .openFile _ => .openK
  | .loaded _ => .loadK
  | .sliced _ _ => .sliceK
  | .printed _ => .printK

/-- A well-formed example input for 4.1: header plus three 3-column rows. -/
def exF41 : String := "Year,PopIndia,PopChina\n1,2,3\n4,5,6\n7,8,9"

/-- A well-formed example input for 5.1: header plus two 5-column rows. -/
def exF51 : String := "i,P,R,nu,t\n0,1.5,2.5,3.5,1\n1,4.5,5.5,6.5,0"

/-- A well-formed example input for 5.1 whose fifth column contains a
non-numeric field. -/
def exF51b : String := "i,P,R,nu,t\n1.0,2,3,4,x\n2.9,5,6,7,-1"

/-- A well-formed example input for 5.2: three single-value records. -/
def exF52 : String := "1.5\n2.5\n3.5"

/-- An example input whose records contain commas, to probe 5.2's delimiter. -/
def exC4 : String := "1,2\n3,4"

/-- A malformed (ragged) example input: data rows with 2 then 1 fields. -/
def exRagged : String := "h\n1,2\n3"

/-- A malformed (ragged) whitespace-delimited input: rows with 2 then 1 fields. -/
def exRaggedWs : String := "1 2\n3"

/-! Helper lemmas: reading a column of the flattened row-major buffer. -/

theorem flatten_getD (rows : List (List α)) (c i j : Nat) (d : α)
    (hc : ∀ r ∈ rows, r.length = c) (hi : i < rows.length) (hj : j < c) :
    rows.flatten.getD (j + i * c) d = (rows.getD i []).getD j d := by
  induction rows generalizing i with
  | nil => simp at hi
  | cons r rest ih =>
    have hr : r.length = c := hc r (by simp)
    cases i with
    | zero =>
      simp only [List.flatten_cons, Nat.zero_mul, Nat.add_zero, List.getD_cons_zero]
      exact List.getD_append _ _ _ _ (by omega)
    | succ i =>
      simp only [List.flatten_cons, Nat.succ_mul, List.getD_cons_succ]
      rw [← Nat.add_assoc, List.getD_append_right _ _ _ _ (by omega)]
      have harg : j + i * c + c - r.length = j + i * c := by omega
      rw [harg]
      exact ih i (fun r hm => hc r (List.mem_cons_of_mem _ hm)) (by simpa using hi)

theorem range_min_map_getD (k : Nat) (l : List α) (d : α) (g : α → β) :
    (List.range (min k l.length)).map (fun i => g (l.getD i d)) = (l.map g).take k := by
  induction l generalizing k with
  | nil => simp
  | cons a t ih =>
    cases k with
    | zero => simp
    | succ k =>
      rw [List.length_cons, Nat.succ_min_succ, List.range_succ_eq_map]
      simp only [List.map_cons, List.map_map, List.getD_cons_zero, List.take_succ_cons]
      refine congrArg (g a :: ·) ?_
      rw [← ih k]
      rfl

theorem cellRows_getD (rows : List (List Val)) (c i j : Nat)
    (hc : ∀ r ∈ rows, r.length = c) (hi : i < rows.length) (hj : j < c) :
    ((rows.map (fun r => r.map Cell.f)).getD i []).getD j (Cell.f .nan) =
      Cell.f ((rows.getD i []).getD j .nan) := by
  have hi2 : i < (rows.map (fun r => r.map Cell.f)).length := by simpa using hi
  rw [List.getD_eq_getElem _ _ hi2, List.getElem_map]
  have hjr : j < rows[i].length := by rw [hc rows[i] (by simp)]; exact hj
  rw [List.getD_eq_getElem _ _ (by simpa using hjr), List.getElem_map,
    List.getD_eq_getElem _ _ hi, List.getD_eq_getElem _ _ hjr]

theorem readElems_col (st : Store) (rows : List (List Val)) (c j m : Nat)
    (hst : st.getD 0 [] = rowsToBuf rows)
    (hc : ∀ r ∈ rows, r.length = c) (hj : j < c) (hm : m ≤ rows.length) :
    readElems st ⟨0, j, [m], [c]⟩ = (colCells rows j).take m := by
  have hcell : ∀ r ∈ rows.map (fun r => r.map Cell.f), r.length = c := by
    intro r hr
    obtain ⟨r0, hr0, rfl⟩ := List.mem_map.mp hr
    simpa using hc r0 hr0
  unfold readElems
  simp only
  have hpt : ∀ i ∈ List.range m,
      cellAt st 0 (j + i * c) = Cell.f ((rows.getD i []).getD j .nan) := by
    intro i hi
    have hi2 : i < rows.length := lt_of_lt_of_le (List.mem_range.mp hi) hm
    unfold cellAt
    rw [hst]
    unfold rowsToBuf
    rw [flatten_getD _ c i j _ hcell (by simpa using hi2) hj]
    exact cellRows_getD rows c i j hc hi2 hj
  unfold colCells
  rw [List.map_congr_left hpt]
  have h5 := range_min_map_getD m rows [] (fun r => Cell.f (r.getD j .nan))
  rwa [Nat.min_eq_left hm] at h5

theorem readElems_col_all (st : Store) (rows : List (List Val)) (c j : Nat)
    (hst : st.getD 0 [] = rowsToBuf rows)
    (hc : ∀ r ∈ rows, r.length = c) (hj : j < c) :
    readElems st ⟨0, j, [rows.length], [c]⟩ = colCells rows j := by
  rw [readElems_col st rows c j rows.length hst hc hj (Nat.le_refl _)]
  exact List.take_of_length_le (by simp [colCells])

theorem readElems_flat (st : Store) (b : Nat) (buf : Buf) (m : Nat)
    (hst : st.getD b [] = buf) (hm : m ≤ buf.length) :
    readElems st ⟨b, 0, [m], [1]⟩ = buf.take m := by
  unfold readElems
  simp only
  have hpt : ∀ i ∈ List.range m,
      cellAt st b (0 + i * 1) = id (buf.getD i (Cell.f .nan)) := by
    intro i _
    unfold cellAt
    rw [hst, Nat.zero_add, Nat.mul_one, id]
  rw [List.map_congr_left hpt]
  have h5 := range_min_map_getD m buf (Cell.f .nan) id
  rw [Nat.min_eq_left hm, List.map_id] at h5
  exact h5

theorem genfromtxt_ok (delim : Option Char) (skip m : Nat) (c : String)
    (h1 : fieldRows delim skip c ≠ [])
    (h2 : ∀ r ∈ fieldRows delim skip c, r.length = m) :
    genfromtxt delim skip c = .ok (valRows delim skip c) := by
  unfold genfromtxt
  cases hf : fieldRows delim skip c with
  | nil => exact absurd hf h1
  | cons r0 rest =>
    have hrect : rectangular (r0 :: rest) = true := by
      unfold rectangular
      rw [List.all_eq_true]
      intro r hr
      have ha := h2 r (hf ▸ List.mem_cons_of_mem _ hr)
      have hb := h2 r0 (hf ▸ List.mem_cons_self _ _)
      simp [ha, hb]
    simp [hrect]

theorem valRows_len (delim : Option Char) (skip m : Nat) (c : String)
    (h2 : ∀ r ∈ fieldRows delim skip c, r.length = m) :
    (valRows delim skip c).length = (fieldRows delim skip c).length ∧
      ∀ r ∈ valRows delim skip c, r.length = m := by
  constructor
  · exact List.length_map _ _
  · intro r hr
    obtain ⟨fr, hfr, rfl⟩ := List.mem_map.mp hr
    simpa using h2 fr hfr

theorem npShape_two (rows : List (List Val)) (m : Nat) (h1 : 2 ≤ rows.length)
    (hm : 2 ≤ m) (hall : ∀ r ∈ rows, r.length = m) :
    npShape rows = [rows.length, m] := by
  have hhead : (rows.headD []).length = m := by
    cases rows with
    | nil => simp at h1
    | cons r rest => exact hall r (by simp)
  have hn : (rows.length == 1) = false := by
    simp only [beq_eq_false_iff_ne, ne_eq]; omega
  have hm1 : (m == 1) = false := by
    simp only [beq_eq_false_iff_ne, ne_eq]; omega
  unfold npShape
  rw [hhead]
  simp [List.filter, hn, hm1]

theorem npShape_one (rows : List (List Val)) (h1 : 2 ≤ rows.length)
    (hall : ∀ r ∈ rows, r.length = 1) :
    npShape rows = [rows.length] := by
  have hhead : (rows.headD []).length = 1 := by
    cases rows with
    | nil => simp at h1
    | cons r rest => exact hall r (by simp)
  have hn : (rows.length == 1) = false := by
    simp only [beq_eq_false_iff_ne, ne_eq]; omega
  unfold npShape
  rw [hhead]
  simp [List.filter, hn]

theorem singleCol_buf (rows : List (List Val)) (hall : ∀ r ∈ rows, r.length = 1) :
    rowsToBuf rows = colCells rows 0 := by
  induction rows with
  | nil => rfl
  | cons r rest ih =>
    have hr : r.length = 1 := hall r (by simp)
    cases r with
    | nil => simp at hr
    | cons v t =>
      cases t with
      | nil =>
        unfold rowsToBuf colCells at ih ⊢
        simp only [List.map_cons, List.flatten_cons, List.getD_cons_zero]
        rw [ih (fun r hm => hall r (List.mem_cons_of_mem _ hm))]
        rfl
      | cons w t2 => simp at hr

/-! Characterizations of the three runs on well-formed input. -/

theorem colSlice_two (b o r cc sr sc j : Nat) (hj : j < cc) :
    colSlice ⟨b, o, [r, cc], [sr, sc]⟩ j = some ⟨b, o + j * sc, [r], [sr]⟩ := by
  unfold colSlice
  simp [hj]

theorem printArr_one (st : Store) (b o n s : Nat) :
    printArr st ⟨b, o, [n], [s]⟩ = .arrOut (readElems st ⟨b, o, [n], [s]⟩) := rfl

theorem headSlice_one (b o n s k : Nat) :
    headSlice ⟨b, o, [n], [s]⟩ k = some ⟨b, o, [min k n], [s]⟩ := rfl

theorem take_min (l : List α) (k : Nat) : l.take (min k l.length) = l.take k := by
  rcases Nat.le_total k l.length with h | h
  · rw [Nat.min_eq_left h]
  · rw [Nat.min_eq_right h, List.take_of_length_le (Nat.le_refl _),
      List.take_of_length_le h]

theorem take_min_of_len (l : List α) (k n : Nat) (h : l.length = n) :
    l.take (min k n) = l.take k := by
  subst h
  exact take_min l k

theorem run41_wf (c : String) (h : wf41 c) :
    run41 (some c) =
      ⟨[.openFile name41,
        .loaded ⟨0, 0, [(valRows (some ',') 1 c).length, 3], [3, 1]⟩,
        .printed (.shapeOut none [(valRows (some ',') 1 c).length, 3]),
        .sliced "year" ⟨0, 0, [(valRows (some ',') 1 c).length], [3]⟩,
        .sliced "PopIndia" ⟨0, 1, [(valRows (some ',') 1 c).length], [3]⟩,
        .sliced "PopChina" ⟨0, 2, [(valRows (some ',') 1 c).length], [3]⟩,
        .printed (.arrOut (colCells (valRows (some ',') 1 c) 0)),
        .printed (.arrOut (colCells (valRows (some ',') 1 c) 1)),
        .printed (.arrOut (colCells (valRows (some ',') 1 c) 2))],
        none, [rowsToBuf (valRows (some ',') 1 c)]⟩ := by
  obtain ⟨h1, h2⟩ := h
  obtain ⟨hlen, hall⟩ := valRows_len (some ',') 1 3 c h2
  have h2n : 2 ≤ (valRows (some ',') 1 c).length := by omega
  have hgft := genfromtxt_ok (some ',') 1 3 c
    (by intro hnil; rw [hnil] at h1; simp at h1) h2
  have hshape := npShape_two _ 3 h2n (by omega) hall
  have hst : (([rowsToBuf (valRows (some ',') 1 c)] : Store)).getD 0 [] =
      rowsToBuf (valRows (some ',') 1 c) := rfl
  unfold run41
  dsimp only
  rw [hgft]
  dsimp only
  unfold baseArr
  rw [hshape]
  dsimp only [rowMajor]
  rw [colSlice_two 0 0 _ 3 3 1 0 (by omega), colSlice_two 0 0 _ 3 3 1 1 (by omega),
    colSlice_two 0 0 _ 3 3 1 2 (by omega)]
  dsimp only
  rw [printArr_one, printArr_one, printArr_one]
  rw [show (0 + 0 * 1 : Nat) = 0 by norm_num, show (0 + 1 * 1 : Nat) = 1 by norm_num,
    show (0 + 2 * 1 : Nat) = 2 by norm_num]
  rw [readElems_col_all _ _ 3 0 hst hall (by omega),
    readElems_col_all _ _ 3 1 hst hall (by omega),
    readElems_col_all _ _ 3 2 hst hall (by omega)]
  simp

theorem run52_wf (c : String) (h : wf52 c) :
    run52 (some c) =
      ⟨[.openFile name52,
        .loaded ⟨0, 0, [(valRows none 0 c).length], [1]⟩,
        .printed (.shapeOut none [(valRows none 0 c).length]),
        .printed (.arrOut ((colCells (valRows none 0 c) 0).take 10))],
        none, [rowsToBuf (valRows none 0 c)]⟩ := by
  obtain ⟨h1, h2⟩ := h
  obtain ⟨hlen, hall⟩ := valRows_len none 0 1 c h2
  have h2n : 2 ≤ (valRows none 0 c).length := by omega
  have hgft := genfromtxt_ok none 0 1 c
    (by intro hnil; rw [hnil] at h1; simp at h1) h2
  have hshape := npShape_one _ h2n hall
  have hbuf : rowsToBuf (valRows none 0 c) = colCells (valRows none 0 c) 0 :=
    singleCol_buf _ hall
  have hst : (([rowsToBuf (valRows none 0 c)] : Store)).getD 0 [] =
      rowsToBuf (valRows none 0 c) := rfl
  have hlb : (rowsToBuf (valRows none 0 c)).length = (valRows none 0 c).length := by
    rw [hbuf]; simp [colCells]
  have hread : readElems [rowsToBuf (valRows none 0 c)]
      ⟨0, 0, [min 10 (valRows none 0 c).length], [1]⟩ =
      (colCells (valRows none 0 c) 0).take 10 := by
    rw [readElems_flat _ 0 _ (min 10 (valRows none 0 c).length) hst (by omega),
      take_min_of_len _ 10 _ hlb, hbuf]
  unfold run52
  dsimp only
  rw [hgft]
  dsimp only
  unfold baseArr
  rw [hshape]
  dsimp only [rowMajor]
  rw [headSlice_one]
  dsimp only
  rw [printArr_one, hread]
  simp

theorem run51_wf (c : String) (h : wf51 c) :
    run51 (some c) =
      ⟨[.openFile name51,
        .loaded ⟨0, 0, [(valRows (some ',') 1 c).length, 5], [5, 1]⟩,
        .printed (.shapeOut (some label51) [(valRows (some ',') 1 c).length, 5]),
        .sliced "index" ⟨1, 0, [(valRows (some ',') 1 c).length], [1]⟩,
        .sliced "P" ⟨0, 1, [(valRows (some ',') 1 c).length], [5]⟩,
        .sliced "R" ⟨0, 2, [(valRows (some ',') 1 c).length], [5]⟩,
        .sliced "freq" ⟨0, 3, [(valRows (some ',') 1 c).length], [5]⟩,
        .sliced "type" ⟨2, 0, [(valRows (some ',') 1 c).length], [1]⟩,
        .printed (.arrOut (((colCells (valRows (some ',') 1 c) 0).map cellToInt).take 3)),
        .printed (.arrOut ((colCells (valRows (some ',') 1 c) 1).take 3)),
        .printed (.arrOut ((colCells (valRows (some ',') 1 c) 2).take 3)),
        .printed (.arrOut ((colCells (valRows (some ',') 1 c) 3).take 3)),
        .printed (.arrOut (((colCells (valRows (some ',') 1 c) 4).map cellToInt).take 3))],
        none,
        [rowsToBuf (valRows (some ',') 1 c),
          (colCells (valRows (some ',') 1 c) 0).map cellToInt,
          (colCells (valRows (some ',') 1 c) 4).map cellToInt]⟩ := by
  obtain ⟨h1, h2⟩ := h
  obtain ⟨hlen, hall⟩ := valRows_len (some ',') 1 5 c h2
  have h2n : 2 ≤ (valRows (some ',') 1 c).length := by omega
  have hgft := genfromtxt_ok (some ',') 1 5 c
    (by intro hnil; rw [hnil] at h1; simp at h1) h2
  have hshape := npShape_two _ 5 h2n (by omega) hall
  have hst : (([rowsToBuf (valRows (some ',') 1 c)] : Store)).getD 0 [] =
      rowsToBuf (valRows (some ',') 1 c) := rfl
  have hcol0len : (colCells (valRows (some ',') 1 c) 0).length =
      (valRows (some ',') 1 c).length := by simp [colCells]
  have hicellslen : ((colCells (valRows (some ',') 1 c) 0).map cellToInt).length =
      (valRows (some ',') 1 c).length := by simp [colCells]
  have htcellslen : ((colCells (valRows (some ',') 1 c) 4).map cellToInt).length =
      (valRows (some ',') 1 c).length := by simp [colCells]
  unfold run51
  dsimp only
  rw [hgft]
  dsimp only
  unfold baseArr
  rw [hshape]
  dsimp only [rowMajor]
  rw [colSlice_two 0 0 _ 5 5 1 0 (by omega), colSlice_two 0 0 _ 5 5 1 1 (by omega),
    colSlice_two 0 0 _ 5 5 1 2 (by omega), colSlice_two 0 0 _ 5 5 1 3 (by omega),
    colSlice_two 0 0 _ 5 5 1 4 (by omega)]
  rw [show (0 + 0 * 1 : Nat) = 0 by norm_num, show (0 + 1 * 1 : Nat) = 1 by norm_num,
    show (0 + 2 * 1 : Nat) = 2 by norm_num, show (0 + 3 * 1 : Nat) = 3 by norm_num,
    show (0 + 4 * 1 : Nat) = 4 by norm_num]
  dsimp only
  unfold astypeInt
  dsimp only
  rw [readElems_col_all _ _ 5 0 hst hall (by omega)]
  have hst1 : (([rowsToBuf (valRows (some ',') 1 c)] ++
      [(colCells (valRows (some ',') 1 c) 0).map cellToInt] : Store)).getD 0 [] =
      rowsToBuf (valRows (some ',') 1 c) := rfl
  rw [readElems_col_all _ _ 5 4 hst1 hall (by omega)]
  simp only [List.cons_append, List.nil_append, List.singleton_append,
    List.length_cons, List.length_singleton, List.length_nil]
  norm_num
  have hcollen : ∀ j, (colCells (valRows (some ',') 1 c) j).length =
      (valRows (some ',') 1 c).length := by
    intro j; simp [colCells]
  rw [hcollen 0, hcollen 4]
  rw [headSlice_one, headSlice_one 0 1, headSlice_one 0 2, headSlice_one 0 3,
    headSlice_one 2]
  dsimp only
  rw [printArr_one, printArr_one, printArr_one, printArr_one, printArr_one]
  have hst2 : (([rowsToBuf (valRows (some ',') 1 c),
      (colCells (valRows (some ',') 1 c) 0).map cellToInt,
      (colCells (valRows (some ',') 1 c) 4).map cellToInt] : Store)).getD 0 [] =
      rowsToBuf (valRows (some ',') 1 c) := rfl
  have hst2i : (([rowsToBuf (valRows (some ',') 1 c),
      (colCells (valRows (some ',') 1 c) 0).map cellToInt,
      (colCells (valRows (some ',') 1 c) 4).map cellToInt] : Store)).getD 1 [] =
      (colCells (valRows (some ',') 1 c) 0).map cellToInt := rfl
  have hst2t : (([rowsToBuf (valRows (some ',') 1 c),
      (colCells (valRows (some ',') 1 c) 0).map cellToInt,
      (colCells (valRows (some ',') 1 c) 4).map cellToInt] : Store)).getD 2 [] =
      (colCells (valRows (some ',') 1 c) 4).map cellToInt := rfl
  rw [readElems_flat _ 1 _ _ hst2i (by rw [hicellslen]; exact Nat.min_le_right _ _),
    readElems_flat _ 2 _ _ hst2t (by rw [htcellslen]; exact Nat.min_le_right _ _)]
  rw [readElems_col _ _ 5 1 _ hst2 hall (by omega) (Nat.min_le_right _ _),
    readElems_col _ _ 5 2 _ hst2 hall (by omega) (Nat.min_le_right _ _),
    readElems_col _ _ 5 3 _ hst2 hall (by omega) (Nat.min_le_right _ _)]
  rw [take_min_of_len _ 3 _ hicellslen, take_min_of_len _ 3 _ htcellslen,
    take_min_of_len _ 3 _ (hcollen 1), take_min_of_len _ 3 _ (hcollen 2),
    take_min_of_len _ 3 _ (hcollen 3)]


/-! The claims. -/
theorem ratTrunc_eq_floor_or_ceil (q : ℚ) :
    ratTrunc q = if 0 ≤ q then ⌊q⌋ else ⌈q⌉ := by
  unfold ratTrunc
  by_cases h : 0 ≤ q
  · rw [if_pos h, Rat.floor_def]
    exact Int.tdiv_eq_ediv (Rat.num_nonneg.mpr h) (Int.natCast_nonneg _)
  · rw [if_neg h]
    have h2 : 0 ≤ -q := by
      push_neg at h
      exact le_of_lt (neg_pos.mpr h)
    have h3 : (-q).num.tdiv ((-q).den : Int) = ⌊-q⌋ := by
      rw [Rat.floor_def]
      exact Int.tdiv_eq_ediv (Rat.num_nonneg.mpr h2) (Int.natCast_nonneg _)
    rw [Rat.num_neg_eq_neg_num, Rat.neg_den, Int.neg_tdiv, Int.floor_neg] at h3
    omega

/-- C1 counterexample: on a well-formed three-record input for
DataReader_Problem5.2 the loaded array is one-dimensional, so it is not the
two-dimensional table the claim asserts for all three scripts. -/
theorem c1_counterexample :
    wf52 exF52 ∧
    ¬ ∀ a ∈ loadedArrs (run52 (some exF52)).trace, a.shape.length = 2 := by
  constructor
  · decide
  · decide

/-- C1 amended: for well-formed input with the documented column count, the
array loaded by 4.1 is two-dimensional with exactly 3 columns and the one
loaded by 5.1 is two-dimensional with exactly 5 columns, while 5.2 (one value
per record) loads a one-dimensional array whose length is the record count. -/
theorem c1_loaded_shapes (c : String) :
    (wf41 c → (loadedArrs (run41 (some c)).trace).map Arr.shape =
      [[(valRows (some ',') 1 c).length, 3]]) ∧
    (wf51 c → (loadedArrs (run51 (some c)).trace).map Arr.shape =
      [[(valRows (some ',') 1 c).length, 5]]) ∧
    (wf52 c → (loadedArrs (run52 (some c)).trace).map Arr.shape =
      [[(valRows none 0 c).length]]) := by
  refine ⟨fun h => ?_, fun h => ?_, fun h => ?_⟩
  · rw [run41_wf c h]; rfl
  · rw [run51_wf c h]; rfl
  · rw [run52_wf c h]; rfl

/-- C1 witness: the amended shape facts evaluated on concrete well-formed
inputs for the three scripts. -/
theorem c1_witness :
    (loadedArrs (run41 (some exF41)).trace).map Arr.shape = [[3, 3]] ∧
    (loadedArrs (run51 (some exF51)).trace).map Arr.shape = [[2, 5]] ∧
    (loadedArrs (run52 (some exF52)).trace).map Arr.shape = [[3]] := by
  refine ⟨?_, ?_, ?_⟩
  · exact ((c1_loaded_shapes exF41).1 (by decide)).trans (by decide)
  · exact ((c1_loaded_shapes exF51).2.1 (by decide)).trans (by decide)
  · exact ((c1_loaded_shapes exF52).2.2 (by decide)).trans (by decide)

/-- C2 counterexample: on a well-formed 4.1 input with three records, not
every printed column sample is shorter than the column: 4.1 prints whole
columns, not just the first few rows. -/
theorem c2_counterexample :
    wf41 exF41 ∧
    ¬ ∀ l ∈ printedCellLists (run41 (some exF41)).trace,
        l.length < (valRows (some ',') 1 exF41).length := by
  constructor
  · decide
  · decide

/-- C2 amended: each script prints exactly the array shape followed by
samples whose cells are the parsed fields of the source file's rows: 4.1
prints each of its three columns in full, 5.1 prints the first 3 entries of
each of its five columns (index and type converted to integers), and 5.2
prints the first 10 entries. -/
theorem c2_printed_samples (c : String) :
    (wf41 c → printedItems (run41 (some c)).trace =
      [.shapeOut none [(valRows (some ',') 1 c).length, 3],
        .arrOut (colCells (valRows (some ',') 1 c) 0),
        .arrOut (colCells (valRows (some ',') 1 c) 1),
        .arrOut (colCells (valRows (some ',') 1 c) 2)]) ∧
    (wf51 c → printedItems (run51 (some c)).trace =
      [.shapeOut (some label51) [(valRows (some ',') 1 c).length, 5],
        .arrOut (((colCells (valRows (some ',') 1 c) 0).map cellToInt).take 3),
        .arrOut ((colCells (valRows (some ',') 1 c) 1).take 3),
        .arrOut ((colCells (valRows (some ',') 1 c) 2).take 3),
        .arrOut ((colCells (valRows (some ',') 1 c) 3).take 3),
        .arrOut (((colCells (valRows (some ',') 1 c) 4).map cellToInt).take 3)]) ∧
    (wf52 c → printedItems (run52 (some c)).trace =
      [.shapeOut none [(valRows none 0 c).length],
        .arrOut ((colCells (valRows none 0 c) 0).take 10)]) := by
  refine ⟨fun h => ?_, fun h => ?_, fun h => ?_⟩
  · rw [run41_wf c h]; rfl
  · rw [run51_wf c h]; rfl
  · rw [run52_wf c h]; rfl

/-- C2 witness: the printed items evaluated on concrete well-formed inputs,
matching the files' parsed values. -/
theorem c2_witness :
    printedItems (run41 (some exF41)).trace =
      [.shapeOut none [3, 3],
        .arrOut [.f (.num 1), .f (.num 4), .f (.num 7)],
        .arrOut [.f (.num 2), .f (.num 5), .f (.num 8)],
        .arrOut [.f (.num 3), .f (.num 6), .f (.num 9)]] ∧
    printedItems (run51 (some exF51)).trace =
      [.shapeOut (some label51) [2, 5],
        .arrOut [.i 0, .i 1],
        .arrOut [.f (.num (mkRat 3 2)), .f (.num (mkRat 9 2))],
        .arrOut [.f (.num (mkRat 5 2)), .f (.num (mkRat 11 2))],
        .arrOut [.f (.num (mkRat 7 2)), .f (.num (mkRat 13 2))],
        .arrOut [.i 1, .i 0]] ∧
    printedItems (run52 (some exF52)).trace =
      [.shapeOut none [3],
        .arrOut [.f (.num (mkRat 3 2)), .f (.num (mkRat 5 2)), .f (.num (mkRat 7 2))]] := by
  refine ⟨?_, ?_, ?_⟩
  · exact ((c2_printed_samples exF41).1 (by decide)).trans (by decide)
  · exact ((c2_printed_samples exF51).2.1 (by decide)).trans (by decide)
  · exact ((c2_printed_samples exF52).2.2 (by decide)).trans (by decide)

/-- C3: a missing input file terminates each script at once with a
fileMissing error and an empty trace, and input the parser rejects terminates
it with that error propagated unrecovered and no printed diagnostics; there is
no retry, fallback, or error translation on any path. -/
theorem c3_error_path :
    run41 none = ⟨[], some .fileMissing, []⟩ ∧
    run51 none = ⟨[], some .fileMissing, []⟩ ∧
    run52 none = ⟨[], some .fileMissing, []⟩ ∧
    ∀ (c : String) (e : LoadErr),
      (genfromtxt (some ',') 1 c = .error e →
        (run41 (some c)).err = some e ∧ printedItems (run41 (some c)).trace = []) ∧
      (genfromtxt (some ',') 1 c = .error e →
        (run51 (some c)).err = some e ∧ printedItems (run51 (some c)).trace = []) ∧
      (genfromtxt none 0 c = .error e →
        (run52 (some c)).err = some e ∧ printedItems (run52 (some c)).trace = []) := by
  refine ⟨rfl, rfl, rfl, fun c e => ⟨fun h => ?_, fun h => ?_, fun h => ?_⟩⟩
  · unfold run41
    dsimp only
    rw [h]
    exact ⟨rfl, rfl⟩
  · unfold run51
    dsimp only
    rw [h]
    exact ⟨rfl, rfl⟩
  · unfold run52
    dsimp only
    rw [h]
    exact ⟨rfl, rfl⟩

/-- C3 witness: the error path evaluated on concrete ragged inputs for the
three scripts. -/
theorem c3_witness :
    (run41 (some exRagged)).err = some .raggedRows ∧
    printedItems (run41 (some exRagged)).trace = [] ∧
    (run51 (some exRagged)).err = some .raggedRows ∧
    printedItems (run51 (some exRagged)).trace = [] ∧
    (run52 (some exRaggedWs)).err = some .raggedRows ∧
    printedItems (run52 (some exRaggedWs)).trace = [] := by
  have h41 := (c3_error_path.2.2.2 exRagged .raggedRows).1 (by decide)
  have h51 := (c3_error_path.2.2.2 exRagged .raggedRows).2.1 (by decide)
  have h52 := (c3_error_path.2.2.2 exRaggedWs .raggedRows).2.2 (by decide)
  exact ⟨h41.1, h41.2, h51.1, h51.2, h52.1, h52.2⟩


theorem splitChar_no_sep (p : Char → Bool) (a : List Char)
    (ha : ∀ x ∈ a, p x = false) : splitChar p a = [a] := by
  induction a with
  | nil => rfl
  | cons x a2 ih =>
    have hx : p x = false := ha x (List.mem_cons_self _ _)
    have ih2 := ih (fun y hy => ha y (List.mem_cons_of_mem _ hy))
    rw [splitChar.eq_def]
    dsimp only
    rw [ih2]
    simp [hx]

theorem splitChar_append (p : Char → Bool) (a b : List Char) (c : Char)
    (hpc : p c = true) (ha : ∀ x ∈ a, p x = false) :
    splitChar p (a ++ c :: b) = a :: splitChar p b := by
  induction a with
  | nil =>
    rw [List.nil_append, splitChar.eq_def]
    dsimp only
    simp [hpc]
  | cons x a2 ih =>
    have hx : p x = false := ha x (List.mem_cons_self _ _)
    have ih2 := ih (fun y hy => ha y (List.mem_cons_of_mem _ hy))
    rw [List.cons_append, splitChar.eq_def]
    dsimp only
    rw [ih2]
    simp [hx]

theorem dropWhile_all_false (p : Char → Bool) (l : List Char)
    (h : ∀ x ∈ l, p x = false) : l.dropWhile p = l := by
  cases l with
  | nil => rfl
  | cons x xs =>
    rw [List.dropWhile_cons, h x (List.mem_cons_self _ _)]
    simp

theorem trimChars_id (l : List Char) (h : ∀ x ∈ l, x.isWhitespace = false) :
    trimChars l = l := by
  unfold trimChars
  rw [dropWhile_all_false _ _ h, dropWhile_all_false, List.reverse_reverse]
  intro x hx
  exact h x (by simpa using hx)

theorem stripComment_id (l : List Char) (h : ∀ x ∈ l, (x == '#') = false) :
    stripComment l = l := by
  unfold stripComment
  induction l with
  | nil => rfl
  | cons x xs ih =>
    rw [List.takeWhile_cons, h x (List.mem_cons_self _ _)]
    simp only [Bool.not_false, if_true]
    rw [ih (fun y hy => h y (List.mem_cons_of_mem _ hy))]

/-- C4 counterexample: DataReader_Problem5.2 does not split fields at commas:
on the input whose records are 1,2 and 3,4 its loader yields one unsplit
field per record, which converts to NaN, instead of two comma-separated
fields per record. -/
theorem c4_counterexample :
    fieldRows none 0 exC4 = [[['1', ',', '2']], [['3', ',', '4']]] ∧
    valRows none 0 exC4 = [[.nan], [.nan]] ∧
    ¬ ∀ r ∈ fieldRows none 0 exC4, r.length = 2 := by
  refine ⟨by decide, by decide, by decide⟩

/-- C4 amended: 4.1 and 5.1 split a record at the comma character into
stripped fields, while 5.2 splits at whitespace and treats a comma as
ordinary field text, leaving it inside the single field. -/
theorem c4_delimiters (a b : List Char)
    (hane : a ≠ []) (hbne : b ≠ [])
    (ha : ∀ x ∈ a, (x == ',') = false ∧ (x == '#') = false ∧ x.isWhitespace = false)
    (hb : ∀ x ∈ b, (x == ',') = false ∧ (x == '#') = false ∧ x.isWhitespace = false) :
    splitFields (some ',') (a ++ ',' :: b) = [a, b] ∧
    splitFields none (a ++ ' ' :: b) = [a, b] ∧
    splitFields none (a ++ ',' :: b) = [a ++ ',' :: b] := by
  have hhash : ∀ x ∈ a ++ ',' :: b, (x == '#') = false := by
    intro x hx
    rcases List.mem_append.mp hx with h1 | h1
    · exact (ha x h1).2.1
    · rcases List.mem_cons.mp h1 with h2 | h2
      · rw [h2]; rfl
      · exact (hb x h2).2.1
  have hhashs : ∀ x ∈ a ++ ' ' :: b, (x == '#') = false := by
    intro x hx
    rcases List.mem_append.mp hx with h1 | h1
    · exact (ha x h1).2.1
    · rcases List.mem_cons.mp h1 with h2 | h2
      · rw [h2]; rfl
      · exact (hb x h2).2.1
  have hnws : ∀ x ∈ a ++ ',' :: b, x.isWhitespace = false := by
    intro x hx
    rcases List.mem_append.mp hx with h1 | h1
    · exact (ha x h1).2.2
    · rcases List.mem_cons.mp h1 with h2 | h2
      · rw [h2]; rfl
      · exact (hb x h2).2.2
  refine ⟨?_, ?_, ?_⟩
  · unfold splitFields
    dsimp only
    rw [stripComment_id _ hhash, trimChars_id _ hnws]
    have hne : (a ++ ',' :: b).isEmpty = false := by
      cases a <;> rfl
    rw [hne]
    simp only [Bool.false_eq_true, if_false]
    rw [splitChar_append _ a b ',' (by decide) (fun x hx => (ha x hx).1),
      splitChar_no_sep _ b (fun x hx => (hb x hx).1)]
    simp only [List.map_cons, List.map_nil]
    rw [trimChars_id a (fun x hx => (ha x hx).2.2),
      trimChars_id b (fun x hx => (hb x hx).2.2)]
  · unfold splitFields
    dsimp only
    rw [stripComment_id _ hhashs]
    rw [splitChar_append _ a b ' ' (by decide) (fun x hx => (ha x hx).2.2),
      splitChar_no_sep _ b (fun x hx => (hb x hx).2.2)]
    cases a with
    | nil => exact absurd rfl hane
    | cons x xs =>
      cases b with
      | nil => exact absurd rfl hbne
      | cons y ys => rfl
  · unfold splitFields
    dsimp only
    rw [stripComment_id _ hhash]
    rw [splitChar_no_sep _ _ hnws]
    cases a with
    | nil => exact absurd rfl hane
    | cons x xs => rfl

/-- C4 witness: the splitting behaviour evaluated on the concrete record
text 1,2 and 1 2. -/
theorem c4_witness :
    splitFields (some ',') (['1'] ++ ',' :: ['2']) = [['1'], ['2']] ∧
    splitFields none (['1'] ++ ' ' :: ['2']) = [['1'], ['2']] ∧
    splitFields none (['1'] ++ ',' :: ['2']) = [['1'] ++ ',' :: ['2']] := by
  exact c4_delimiters ['1'] ['2'] (by decide) (by decide) (by decide) (by decide)

/-- C5 counterexample: on a well-formed 5.1 input the loaded table occupies
buffer 0 but the index projection lives in a different buffer: not every
named projection is a view into the table's storage. -/
theorem c5_counterexample :
    wf51 exF51 ∧
    (loadedArrs (run51 (some exF51)).trace).map Arr.buf = [0] ∧
    ¬ ∀ p ∈ slicedArrs (run51 (some exF51)).trace, (p.2).buf = 0 := by
  refine ⟨by decide, by decide, by decide⟩

/-- C5 amended: the float projections (year, PopIndia, PopChina, P, R, freq)
are views on the table's buffer 0 whose elements are exactly the table's
columns, while index and type, produced by astype(int), own the freshly
allocated buffers 1 and 2. -/
theorem c5_views_and_copies (c : String) :
    (wf41 c →
      (slicedArrs (run41 (some c)).trace).map (fun p => (p.1, (p.2).buf)) =
        [("year", 0), ("PopIndia", 0), ("PopChina", 0)] ∧
      (loadedArrs (run41 (some c)).trace).map Arr.buf = [0] ∧
      ∀ j, j < 3 → readElems (run41 (some c)).store
          ⟨0, j, [(valRows (some ',') 1 c).length], [3]⟩ =
          colCells (valRows (some ',') 1 c) j) ∧
    (wf51 c →
      (slicedArrs (run51 (some c)).trace).map (fun p => (p.1, (p.2).buf)) =
        [("index", 1), ("P", 0), ("R", 0), ("freq", 0), ("type", 2)] ∧
      (loadedArrs (run51 (some c)).trace).map Arr.buf = [0] ∧
      ∀ j, 1 ≤ j → j ≤ 3 → readElems (run51 (some c)).store
          ⟨0, j, [(valRows (some ',') 1 c).length], [5]⟩ =
          colCells (valRows (some ',') 1 c) j) := by
  refine ⟨fun h => ?_, fun h => ?_⟩
  · obtain ⟨hlen, hall⟩ := valRows_len (some ',') 1 3 c h.2
    rw [run41_wf c h]
    exact ⟨rfl, rfl, fun j hj => readElems_col_all _ _ 3 j rfl hall hj⟩
  · obtain ⟨hlen, hall⟩ := valRows_len (some ',') 1 5 c h.2
    rw [run51_wf c h]
    exact ⟨rfl, rfl, fun j h1 h3 => readElems_col_all _ _ 5 j rfl hall (by omega)⟩

/-- C5 witness: the view and copy facts evaluated on concrete well-formed
inputs, including the elements of the P view. -/
theorem c5_witness :
    (slicedArrs (run41 (some exF41)).trace).map (fun p => (p.1, (p.2).buf)) =
      [("year", 0), ("PopIndia", 0), ("PopChina", 0)] ∧
    (slicedArrs (run51 (some exF51)).trace).map (fun p => (p.1, (p.2).buf)) =
      [("index", 1), ("P", 0), ("R", 0), ("freq", 0), ("type", 2)] ∧
    readElems (run51 (some exF51)).store ⟨0, 1, [2], [5]⟩ =
      [.f (.num (mkRat 3 2)), .f (.num (mkRat 9 2))] := by
  refine ⟨((c5_views_and_copies exF41).1 (by decide)).1,
    ((c5_views_and_copies exF51).2 (by decide)).1, ?_⟩
  exact (((c5_views_and_copies exF51).2 (by decide)).2.2 1 (by omega) (by omega)).trans
    (by decide)

/-- C6 counterexample: on a well-formed 4.1 input the trace contains a print
(of the shape) strictly before the first named slice, refuting the claimed
order in which no printing precedes the column slices. -/
theorem c6_counterexample :
    wf41 exF41 ∧ printBeforeSlice (run41 (some exF41)).trace = true := by
  refine ⟨by decide, by decide⟩

/-- C6 amended: each script's trace is exactly open file, load, print of the
shape, then the named column slices (none for 5.2), then the sample prints:
the shape print is the one print that precedes the slices. -/
theorem c6_phase_order (c : String) :
    (wf41 c → (run41 (some c)).trace.map kindOf =
      [.openK, .loadK, .printK, .sliceK, .sliceK, .sliceK, .printK, .printK, .printK]) ∧
    (wf51 c → (run51 (some c)).trace.map kindOf =
      [.openK, .loadK, .printK, .sliceK, .sliceK, .sliceK, .sliceK, .sliceK,
        .printK, .printK, .printK, .printK, .printK]) ∧
    (wf52 c → (run52 (some c)).trace.map kindOf =
      [.openK, .loadK, .printK, .printK]) := by
  refine ⟨fun h => ?_, fun h => ?_, fun h => ?_⟩
  · rw [run41_wf c h]; rfl
  · rw [run51_wf c h]; rfl
  · rw [run52_wf c h]; rfl

/-- C6 witness: the phase order evaluated on concrete well-formed inputs for
the three scripts. -/
theorem c6_witness :
    (run41 (some exF41)).trace.map kindOf =
      [.openK, .loadK, .printK, .sliceK, .sliceK, .sliceK, .printK, .printK, .printK] ∧
    (run51 (some exF51)).trace.map kindOf =
      [.openK, .loadK, .printK, .sliceK, .sliceK, .sliceK, .sliceK, .sliceK,
        .printK, .printK, .printK, .printK, .printK] ∧
    (run52 (some exF52)).trace.map kindOf = [.openK, .loadK, .printK, .printK] :=
  ⟨(c6_phase_order exF41).1 (by decide), (c6_phase_order exF51).2.1 (by decide),
    (c6_phase_order exF52).2.2 (by decide)⟩

/-- C7: whenever the load succeeds, the loaded table's buffer in the final
store equals the buffer built from the parsed rows, on every control path of
every script: no operation after the load mutates the table, and the run's
result is the only surviving state. -/
theorem c7_table_not_mutated (c : String) (rows : List (List Val)) :
    (genfromtxt (some ',') 1 c = .ok rows →
      (run41 (some c)).store.getD 0 [] = rowsToBuf rows) ∧
    (genfromtxt (some ',') 1 c = .ok rows →
      (run51 (some c)).store.getD 0 [] = rowsToBuf rows) ∧
    (genfromtxt none 0 c = .ok rows →
      (run52 (some c)).store.getD 0 [] = rowsToBuf rows) := by
  refine ⟨fun h => ?_, fun h => ?_, fun h => ?_⟩
  · unfold run41
    dsimp only
    rw [h]
    dsimp only
    split
    · rfl
    · split
      · rfl
      · split
        · rfl
        · rfl
  · unfold run51
    dsimp only
    rw [h]
    dsimp only
    cases colSlice (baseArr rows) 0 with
    | none => rfl
    | some a0 =>
      dsimp only
      cases colSlice (baseArr rows) 1 with
      | none => rfl
      | some a1 =>
        dsimp only
        cases colSlice (baseArr rows) 2 with
        | none => rfl
        | some a2 =>
          dsimp only
          cases colSlice (baseArr rows) 3 with
          | none => rfl
          | some a3 =>
            dsimp only
            cases colSlice (baseArr rows) 4 with
            | none => rfl
            | some a4 =>
              dsimp only
              cases headSlice (astypeInt [rowsToBuf rows] a0).2 3 <;>
                cases headSlice a1 3 <;>
                  cases headSlice a2 3 <;>
                    cases headSlice a3 3 <;>
                      cases headSlice
                          (astypeInt (astypeInt [rowsToBuf rows] a0).1 a4).2 3 <;>
                        rfl
  · unfold run52
    dsimp only
    rw [h]
    dsimp only
    split
    · rfl
    · rfl

/-- C7 witness: the unchanged table buffer evaluated on concrete well-formed
inputs for the three scripts. -/
theorem c7_witness :
    (run41 (some exF41)).store.getD 0 [] = rowsToBuf (valRows (some ',') 1 exF41) ∧
    (run51 (some exF51)).store.getD 0 [] = rowsToBuf (valRows (some ',') 1 exF51) ∧
    (run52 (some exF52)).store.getD 0 [] = rowsToBuf (valRows none 0 exF52) :=
  ⟨(c7_table_not_mutated exF41 _).1 (by decide),
    (c7_table_not_mutated exF51 _).2.1 (by decide),
    (c7_table_not_mutated exF52 _).2.2 (by decide)⟩

/-- C8: every run terminates with a result whose trace is bounded (the
scripts are straight-line and never loop), and a run that ends without an
error has executed exactly its print statements: 4 prints for 4.1, 6 for
5.1, 2 for 5.2; otherwise it failed outright with an error. -/
theorem c8_termination (f : Option String) :
    ((run41 f).trace.length ≤ 9 ∧
      ((run41 f).err = none → (printedItems (run41 f).trace).length = 4)) ∧
    ((run51 f).trace.length ≤ 13 ∧
      ((run51 f).err = none → (printedItems (run51 f).trace).length = 6)) ∧
    ((run52 f).trace.length ≤ 4 ∧
      ((run52 f).err = none → (printedItems (run52 f).trace).length = 2)) := by
  refine ⟨?_, ?_, ?_⟩
  · cases f with
    | none => exact ⟨by decide, by decide⟩
    | some c =>
      unfold run41
      dsimp only
      repeat' split
      all_goals simp [printedItems]
  · cases f with
    | none => exact ⟨by decide, by decide⟩
    | some c =>
      unfold run51
      dsimp only
      repeat' split
      all_goals simp [printedItems]
  · cases f with
    | none => exact ⟨by decide, by decide⟩
    | some c =>
      unfold run52
      dsimp only
      repeat' split
      all_goals simp [printedItems]


/-- C8 witness: the termination bounds and completion print counts evaluated
on concrete well-formed inputs for the three scripts. -/
theorem c8_witness :
    (run41 (some exF41)).trace.length ≤ 9 ∧
    (printedItems (run41 (some exF41)).trace).length = 4 ∧
    (run51 (some exF51)).trace.length ≤ 13 ∧
    (printedItems (run51 (some exF51)).trace).length = 6 ∧
    (run52 (some exF52)).trace.length ≤ 4 ∧
    (printedItems (run52 (some exF52)).trace).length = 2 :=
  ⟨(c8_termination (some exF41)).1.1, (c8_termination (some exF41)).1.2 (by decide),
    (c8_termination (some exF51)).2.1.1, (c8_termination (some exF51)).2.1.2 (by decide),
    (c8_termination (some exF52)).2.2.1, (c8_termination (some exF52)).2.2.2 (by decide)⟩

/-- C9: the scripts consult nothing but the input file: two runs in
arbitrary environments (argv, environment variables, clock reading, random
seed) on files with identical contents produce identical results, so the
complete printed output is deterministic. -/
theorem c9_deterministic (e1 e2 : Env) (f : Option String) :
    run41Env e1 f = run41Env e2 f ∧ run51Env e1 f = run51Env e2 f ∧
      run52Env e1 f = run52Env e2 f :=
  ⟨rfl, rfl, rfl⟩

/-- C10: astype(int) converts elementwise with truncation toward zero on
finite values (ratTrunc is the floor of nonnegative and the ceiling of
negative values), converts NaN silently to the platform's int64 sentinel
without raising, and on well-formed 5.1 input the run completes with index
and type holding the converted columns 0 and 4 in the fresh buffers 1 and 2,
independent copies of the table in buffer 0. -/
theorem c10_astype_truncates (c : String) :
    (∀ q : ℚ, cellToInt (.f (.num q)) = .i (ratTrunc q)) ∧
    (∀ q : ℚ, ratTrunc q = if 0 ≤ q then ⌊q⌋ else ⌈q⌉) ∧
    cellToInt (.f .nan) = .i nonFiniteInt ∧
    (wf51 c →
      (run51 (some c)).err = none ∧
      readElems (run51 (some c)).store
          ⟨1, 0, [(valRows (some ',') 1 c).length], [1]⟩ =
        (colCells (valRows (some ',') 1 c) 0).map cellToInt ∧
      readElems (run51 (some c)).store
          ⟨2, 0, [(valRows (some ',') 1 c).length], [1]⟩ =
        (colCells (valRows (some ',') 1 c) 4).map cellToInt ∧
      (slicedArrs (run51 (some c)).trace).map (fun p => (p.1, (p.2).buf)) =
        [("index", 1), ("P", 0), ("R", 0), ("freq", 0), ("type", 2)]) := by
  refine ⟨fun q => rfl, ratTrunc_eq_floor_or_ceil, rfl, fun h => ?_⟩
  have hicl : ((colCells (valRows (some ',') 1 c) 0).map cellToInt).length =
      (valRows (some ',') 1 c).length := by simp [colCells]
  have htcl : ((colCells (valRows (some ',') 1 c) 4).map cellToInt).length =
      (valRows (some ',') 1 c).length := by simp [colCells]
  rw [run51_wf c h]
  refine ⟨rfl, ?_, ?_, rfl⟩
  · rw [readElems_flat [rowsToBuf (valRows (some ',') 1 c),
        (colCells (valRows (some ',') 1 c) 0).map cellToInt,
        (colCells (valRows (some ',') 1 c) 4).map cellToInt] 1
        ((colCells (valRows (some ',') 1 c) 0).map cellToInt)
        (valRows (some ',') 1 c).length rfl (le_of_eq hicl.symm),
      List.take_of_length_le (le_of_eq hicl)]
  · rw [readElems_flat [rowsToBuf (valRows (some ',') 1 c),
        (colCells (valRows (some ',') 1 c) 0).map cellToInt,
        (colCells (valRows (some ',') 1 c) 4).map cellToInt] 2
        ((colCells (valRows (some ',') 1 c) 4).map cellToInt)
        (valRows (some ',') 1 c).length rfl (le_of_eq htcl.symm),
      List.take_of_length_le (le_of_eq htcl)]

/-- C10 witness: evaluated on a 5.1 input containing a non-numeric field:
the run completes, index truncates column 0 (1.0 to 1, 2.9 to 2) and type
converts the NaN silently to the sentinel. -/
theorem c10_witness :
    (run51 (some exF51b)).err = none ∧
    readElems (run51 (some exF51b)).store
        ⟨1, 0, [(valRows (some ',') 1 exF51b).length], [1]⟩ = [.i 1, .i 2] ∧
    readElems (run51 (some exF51b)).store
        ⟨2, 0, [(valRows (some ',') 1 exF51b).length], [1]⟩ =
      [.i nonFiniteInt, .i (-1)] := by
  have h := (c10_astype_truncates exF51b).2.2.2 (by decide)
  exact ⟨h.1, h.2.1.trans (by decide), h.2.2.1.trans (by decide)⟩


end AppStat
